import Mathlib

/-!
Verification development for the Pitch Splitter utility
(`scripts/split_pitches.py`): a single-pass partitioner that splits a CSV
table of pitch trajectory samples into per-pitch tables, starting a new
group whenever the first column parses to the floating-point value 0.0.

The embedding below models the script shallowly:
* a table is a list of rows, each row a list of string fields;
* filesystem writes are recorded as a list of write events in program
  order, from which the final on-disk file contents are recovered by
  keeping the last write to each file name;
* Python `float` parsing of column 0 is modelled by an exact grammar for
  finite decimal literals (optional sign, digits, optional fraction,
  optional exponent).  The script only uses the parse result for the test
  `t == 0.0`, which for a non-underflowing finite literal holds exactly
  when the literal's mantissa digits are all zero; `inf`/`nan` literals,
  which Python parses but which always fail the `== 0.0` test, take the
  same control-flow branch as a parse failure and are therefore modelled
  as parse failures.
-/

namespace SplitPitches

/-- A CSV row: ordered sequence of string fields. -/
abbrev Row := List String

/-- Characters removed by Python `str.strip()` (ASCII whitespace). -/
def isPySpace (c : Char) : Bool :=
  c = ' ' || c = '\t' || c = '\n' || c = '\r' || c = '\x0b' || c = '\x0c'

/-- Model of `row[0].strip()`: remove leading and trailing whitespace. -/
def pyStrip (s : String) : List Char :=
  ((s.toList.dropWhile isPySpace).reverse.dropWhile isPySpace).reverse

/-- Value of a digit string read in base 10. -/
def digitsToNat (ds : List Char) : Nat :=
  ds.foldl (fun a c => a * 10 + (c.toNat - Char.toNat '0')) 0

/-- Split off a maximal leading run of decimal digits. -/
def takeDigits (cs : List Char) : List Char × List Char :=
  (cs.takeWhile Char.isDigit, cs.dropWhile Char.isDigit)

/-- Consume an optional sign; `true` means negative. -/
def parseSign : List Char → Bool × List Char
  | '-' :: cs => (true, cs)
  | '+' :: cs => (false, cs)
  | cs => (false, cs)

/-- Exact value of a finite decimal literal: sign, mantissa digits read as a
natural number, and a base-10 exponent, denoting `±mantissa * 10 ^ exp10`. -/
structure DecLit where
  neg : Bool
  mantissa : Nat
  exp10 : Int
deriving DecidableEq

/-- Consume an optional exponent part (`e`/`E`, optional sign, digits) that
must end the string; returns the exponent value. -/
def parseExpPart (cs : List Char) : Option Int :=
  match cs with
  | [] => some 0
  | 'e' :: rest =>
    let p := parseSign rest
    let d := takeDigits p.2
    if d.1.isEmpty || !d.2.isEmpty then none
    else some (if p.1 then -(digitsToNat d.1 : Int) else (digitsToNat d.1 : Int))
  | 'E' :: rest =>
    let p := parseSign rest
    let d := takeDigits p.2
    if d.1.isEmpty || !d.2.isEmpty then none
    else some (if p.1 then -(digitsToNat d.1 : Int) else (digitsToNat d.1 : Int))
  | _ => none

/-- Model of Python `float(s)` on finite decimal literals: optional sign,
then either digits with an optional fraction or a bare fraction, then an
optional exponent.  Returns the exact decimal value, or `none` when `float`
raises (the script's `except` branch sets `t = None` in that case). -/
def parseDecLit (cs : List Char) : Option DecLit :=
  let s := parseSign cs
  let i := takeDigits s.2
  match i.2 with
  | '.' :: cs3 =>
    let f := takeDigits cs3
    if i.1.isEmpty && f.1.isEmpty then none
    else
      match parseExpPart f.2 with
      | none => none
      | some e => some ⟨s.1, digitsToNat (i.1 ++ f.1), e - (f.1.length : Int)⟩
  | _ =>
    if i.1.isEmpty then none
    else
      match parseExpPart i.2 with
      | none => none
      | some e => some ⟨s.1, digitsToNat i.1, e⟩

/-- The exact rational value denoted by a decimal literal. -/
def DecLit.toRat (l : DecLit) : ℚ :=
  (if l.neg then -(l.mantissa : ℚ) else (l.mantissa : ℚ)) * (10 : ℚ) ^ l.exp10

/-- Model of the script's boundary test `t == 0.0` after
`t = float(row[0].strip())`: the field parses and its exact value is zero
(equivalently, its mantissa digits are all zero).  A parse failure sets
`t = None`, and `None == 0.0` is false. -/
def floatEqZero (s : String) : Bool :=
  match parseDecLit (pyStrip s) with
  | some l => l.mantissa == 0
  | none => false

/-- Whether a row is a Boundary Row: nonempty and its field 0 passes the
`t == 0.0` test.  (The script only evaluates this on nonempty rows.) -/
def rowIsBoundary (row : Row) : Bool :=
  match row with
  | [] => false
  | s :: _ => floatEqZero s

/-- Model of Python `f"{n:03d}"`: decimal digits left-padded with zeros to
width 3. -/
def pad3 (n : Nat) : String :=
  let s := toString n
  if 3 ≤ s.length then s else String.mk (List.replicate (3 - s.length) '0') ++ s

/-- Model of `write_pitch`: the file name `f"{base}_pitch_{idx:03d}.csv"`
and the file content, header first then the buffered rows.  (The real
function also creates the output directory and returns the path; directory
creation happens exactly once per write event.) -/
def write_pitch (base : String) (idx : Nat) (header : Row) (rows : List Row) :
    String × List Row :=
  (base ++ "_pitch_" ++ pad3 idx ++ ".csv", header :: rows)

/-- One recorded call to `write_pitch`: the pitch index used for the file
name, the header, and the buffered data rows written below it. -/
structure WriteEvent where
  idx : Nat
  header : Row
  rows : List Row
deriving DecidableEq

/-- The mutable state of `split_file`'s loop: the pitch counter
`pitch_idx`, the row buffer `current_rows`, and the write events performed
so far (in program order). -/
structure SplitState where
  pitch_idx : Nat
  current_rows : List Row
  writes : List WriteEvent
deriving DecidableEq

/-- Initial loop state: counter 0, empty buffer, nothing written. -/
def initState : SplitState := ⟨0, [], []⟩

/-- The body of `split_file`'s `for row in reader` loop: skip empty rows;
on a boundary row flush the nonempty buffer (incrementing the counter
first) and start the next group with the boundary row; on a non-boundary
row increment the counter when the buffer is empty, then append the row. -/
def processRow (header : Row) (st : SplitState) (row : Row) : SplitState :=
  if row.isEmpty then st
  else if rowIsBoundary row then
    if st.current_rows.isEmpty then
      ⟨st.pitch_idx, st.current_rows ++ [row], st.writes⟩
    else
      ⟨st.pitch_idx + 1, [row],
        st.writes ++ [⟨st.pitch_idx + 1, header, st.current_rows⟩]⟩
  else
    if st.current_rows.isEmpty then
      ⟨st.pitch_idx + 1, st.current_rows ++ [row], st.writes⟩
    else
      ⟨st.pitch_idx, st.current_rows ++ [row], st.writes⟩

/-- The code after the loop: if the buffer is nonempty, write it using the
current counter when positive, otherwise index 1. -/
def flushFinal (header : Row) (st : SplitState) : List WriteEvent :=
  if st.current_rows.isEmpty then st.writes
  else st.writes ++
    [⟨if st.pitch_idx > 0 then st.pitch_idx else 1, header, st.current_rows⟩]

/-- Result of `split_file`: either the empty-input early return (the script
prints "Input file is empty" and returns), or the list of write events. -/
inductive SplitResult where
  | emptyInput
  | ok (writes : List WriteEvent)
deriving DecidableEq

/-- The write events of a result (none for the empty-input early return). -/
def SplitResult.events : SplitResult → List WriteEvent
  | SplitResult.emptyInput => []
  | SplitResult.ok ws => ws

/-- The header and loop state of `split_file` just after the row loop and
before the final flush; `none` models the `StopIteration` early return on
an input with no rows at all. -/
def finalState : List Row → Option (Row × SplitState)
  | [] => none
  | header :: rest => some (header, rest.foldl (processRow header) initState)

/-- Model of `split_file`: read the header (early return when absent), run
the loop over the remaining rows, then perform the final flush. -/
def split_file (table : List Row) : SplitResult :=
  match finalState table with
  | none => SplitResult.emptyInput
  | some p => SplitResult.ok (flushFinal p.1 p.2)

/-- The distinct values of a list in order of first occurrence. -/
def uniqueIndices (l : List Nat) : List Nat :=
  l.foldl (fun acc i => if i ∈ acc then acc else acc ++ [i]) []

/-- The last write event targeting pitch index `i`, i.e. the write whose
content the file holds once the run finishes. -/
def lastWrite (ws : List WriteEvent) (i : Nat) : Option WriteEvent :=
  (ws.filter (fun w => w.idx == i)).getLast?

/-- The on-disk output files after the run: for each pitch index that was
ever written, the content (header first) of the last write to it. -/
def diskFiles (ws : List WriteEvent) : List (Nat × List Row) :=
  (uniqueIndices (ws.map (fun w => w.idx))).map
    (fun i =>
      (i, match lastWrite ws i with
          | some w => w.header :: w.rows
          | none => []))

/-- Concatenation of the non-header rows of every on-disk output file, in
pitch order. -/
def concatDataRows (ws : List WriteEvent) : List Row :=
  ((diskFiles ws).map (fun p => p.2.tail)).flatten

/-- Model of `main`: when the input path exists, run `split_file` on the
table read from it; otherwise `raise SystemExit(f"Input file not found:
{input_path}")` before any processing. -/
def main (inputExists : Bool) (inputPath : String) (table : List Row) :
    Except String SplitResult :=
  if inputExists then Except.ok (split_file table)
  else Except.error ("Input file not found: " ++ inputPath)

/-- Process exit code: `SystemExit` with a string message exits with 1;
otherwise the script falls off the end of `main` and exits 0. -/
def exitCode : Except String SplitResult → Nat
  | Except.error _ => 1
  | Except.ok _ => 0

/-- The write events a `main` run performs (none on the error path). -/
def eventsOf : Except String SplitResult → List WriteEvent
  | Except.ok r => r.events
  | Except.error _ => []

/-- Whether the output directory gets created: `outdir.mkdir` is called
only inside `write_pitch`, hence exactly when at least one write event
occurs. -/
def outdirCreated (r : Except String SplitResult) : Bool :=
  !(eventsOf r).isEmpty

/-! Helper lemmas about the loop body, the final flush, and decimal
literal values. -/

/-- The value of a decimal literal is zero exactly when its mantissa
digits are all zero; this justifies using the mantissa test as the model
of `float(t_str) == 0.0`. -/
theorem DecLit.toRat_eq_zero_iff (l : DecLit) : l.toRat = 0 ↔ l.mantissa = 0 := by
  unfold DecLit.toRat
  have h10 : (10 : ℚ) ^ l.exp10 ≠ 0 := zpow_ne_zero _ (by norm_num)
  cases hn : l.neg <;> simp [mul_eq_zero, h10, Nat.cast_eq_zero]

/-- One loop iteration either leaves the write log unchanged, or appends a
single flush event carrying the loop header and the (nonempty) buffered
rows with the incremented counter. -/
theorem processRow_writes (h : Row) (s : SplitState) (r : Row) :
    (processRow h s r).writes = s.writes ∨
    ((processRow h s r).writes =
        s.writes ++ [⟨s.pitch_idx + 1, h, s.current_rows⟩] ∧
      s.current_rows ≠ []) := by
  by_cases h1 : r.isEmpty
  · left
    simp [processRow, h1]
  · by_cases h2 : rowIsBoundary r
    · by_cases h3 : s.current_rows.isEmpty
      · left
        simp [processRow, h1, h2, h3]
      · right
        constructor
        · simp [processRow, h1, h2, h3]
        · simpa [List.isEmpty_iff] using h3
    · by_cases h3 : s.current_rows.isEmpty
      · left
        simp [processRow, h1, h2, h3]
      · left
        simp [processRow, h1, h2, h3]

/-- The final flush either writes nothing (empty buffer) or appends one
event carrying the header and the nonempty buffer. -/
theorem flushFinal_writes (h : Row) (st : SplitState) :
    flushFinal h st = st.writes ∨
    (flushFinal h st = st.writes ++
        [⟨if st.pitch_idx > 0 then st.pitch_idx else 1, h, st.current_rows⟩] ∧
      st.current_rows ≠ []) := by
  by_cases h3 : st.current_rows.isEmpty
  · left
    simp [flushFinal, h3]
  · right
    constructor
    · simp [flushFinal, h3]
    · simpa [List.isEmpty_iff] using h3

/-- Invariant preservation along the row loop. -/
theorem foldl_processRow_inv (P : SplitState → Prop) (h : Row) :
    ∀ (rows : List Row) (st : SplitState), P st →
      (∀ s r, r ∈ rows → P s → P (processRow h s r)) →
      P (rows.foldl (processRow h) st)
  | [], _, hst, _ => hst
  | r :: rs, st, hst, step =>
    foldl_processRow_inv P h rs (processRow h st r)
      (step st r (List.mem_cons_self r rs) hst)
      (fun s x hx hP => step s x (List.mem_cons_of_mem r hx) hP)

/-- Unfolding of `split_file` on a table with a header. -/
theorem split_file_cons (h : Row) (rest : List Row) :
    split_file (h :: rest) =
      SplitResult.ok (flushFinal h (rest.foldl (processRow h) initState)) := rfl

/-- Every write event of a run on a table with header `h` carries `h` as
its header and a nonempty list of data rows. -/
theorem split_file_event_shape (h : Row) (rest : List Row) :
    ∀ w ∈ (split_file (h :: rest)).events, w.header = h ∧ w.rows ≠ [] := by
  rw [split_file_cons]
  show ∀ w ∈ flushFinal h (rest.foldl (processRow h) initState),
    w.header = h ∧ w.rows ≠ []
  have hinv : ∀ w ∈ (rest.foldl (processRow h) initState).writes,
      w.header = h ∧ w.rows ≠ [] := by
    refine foldl_processRow_inv
      (fun st => ∀ w ∈ st.writes, w.header = h ∧ w.rows ≠ []) h rest initState
      ?_ ?_
    · intro w hw
      simp [initState] at hw
    · intro s r _ hP
      rcases processRow_writes h s r with heq | ⟨heq, hne⟩
      · rw [heq]
        exact hP
      · rw [heq]
        intro w hw
        rcases List.mem_append.1 hw with h1 | h1
        · exact hP w h1
        · rcases List.mem_singleton.1 h1 with rfl
          exact ⟨rfl, hne⟩
  rcases flushFinal_writes h (rest.foldl (processRow h) initState) with
    heq | ⟨heq, hne⟩
  · rw [heq]
    exact hinv
  · rw [heq]
    intro w hw
    rcases List.mem_append.1 hw with h1 | h1
    · exact hinv w h1
    · rcases List.mem_singleton.1 h1 with rfl
      exact ⟨rfl, hne⟩

/-! Claim theorems. -/

/-- Claim C1 (refuted; code bug): concatenating the non-header rows of the
on-disk output files does not reproduce the input's non-header rows.  On
the spec's own scenario input, both pitch groups are written to file index
1 (the end-of-input write reuses the counter instead of incrementing it),
so the second write overwrites the first and rows 1 and 2 are lost. -/
theorem split_file_partition_cex :
    (split_file [["time_diff", "x"], ["0.0", "a"], ["0.1", "b"], ["0.0", "c"],
        ["0.2", "d"]]).events =
      [⟨1, ["time_diff", "x"], [["0.0", "a"], ["0.1", "b"]]⟩,
        ⟨1, ["time_diff", "x"], [["0.0", "c"], ["0.2", "d"]]⟩] ∧
    concatDataRows (split_file [["time_diff", "x"], ["0.0", "a"], ["0.1", "b"],
        ["0.0", "c"], ["0.2", "d"]]).events = [["0.0", "c"], ["0.2", "d"]] ∧
    concatDataRows (split_file [["time_diff", "x"], ["0.0", "a"], ["0.1", "b"],
        ["0.0", "c"], ["0.2", "d"]]).events ≠
      [["0.0", "a"], ["0.1", "b"], ["0.0", "c"], ["0.2", "d"]] := by
  decide

/-- Claim C2 (refuted; code bug): on the spec's scenario input the two
flushed groups do not receive distinct indices 1 and 2: both writes target
`input_pitch_001.csv`, so only one output file exists at the end. -/
theorem split_file_naming_cex :
    ((split_file [["time_diff", "x"], ["0.0", "a"], ["0.1", "b"], ["0.0", "c"],
        ["0.2", "d"]]).events).map
        (fun w => (write_pitch ("input") w.idx w.header w.rows).1) =
      ["input_pitch_001.csv", "input_pitch_001.csv"] ∧
    uniqueIndices (((split_file [["time_diff", "x"], ["0.0", "a"], ["0.1", "b"],
        ["0.0", "c"], ["0.2", "d"]]).events).map (fun w => w.idx)) = [1] := by
  decide

/-- Claim C3 (refuted; code bug): when the input starts with a
non-boundary row, the leading partial group is written with index 2, not
1: the eager increment reserves 1, but the boundary flush increments the
counter again before writing.  No file with index 1 is ever produced on
this input, and on disk the leading row sits in the index-2 file. -/
theorem split_file_leading_group_cex :
    (split_file [["time_diff"], ["0.5", "a"], ["0.0", "b"], ["0.0", "c"]]).events =
      [⟨2, ["time_diff"], [["0.5", "a"]]⟩, ⟨3, ["time_diff"], [["0.0", "b"]]⟩,
        ⟨3, ["time_diff"], [["0.0", "c"]]⟩] ∧
    ((split_file [["time_diff"], ["0.5", "a"], ["0.0", "b"],
        ["0.0", "c"]]).events).map (fun w => w.idx) = [2, 3, 3] ∧
    diskFiles (split_file [["time_diff"], ["0.5", "a"], ["0.0", "b"],
        ["0.0", "c"]]).events =
      [(2, [["time_diff"], ["0.5", "a"]]),
        (3, [["time_diff"], ["0.0", "c"]])] := by
  decide

/-- Claim C4 (refuted; code bug): the on-disk output file with pitch index
2 (greater than 1) has first data row `["0.5", "a"]`, whose field 0 does
not parse to 0.0. -/
theorem split_file_boundary_cex :
    diskFiles (split_file [["time_diff"], ["0.5", "a"], ["0.0", "b"],
        ["0.0", "c"]]).events =
      [(2, [["time_diff"], ["0.5", "a"]]),
        (3, [["time_diff"], ["0.0", "c"]])] ∧
    floatEqZero ("0.5") = false := by
  decide

/-- Claim C5 (refuted): the defensive fallback in the end-of-input write
is reachable.  On an input whose first data row is a boundary row and that
has no further boundary row, the loop ends with the pitch counter still 0
and a nonempty buffer, so the final write executes with counter 0 and the
fallback substitutes index 1. -/
theorem split_file_fallback_reached_cex :
    finalState [["time_diff", "x"], ["0.0", "a"], ["0.1", "b"]] =
      some (["time_diff", "x"], ⟨0, [["0.0", "a"], ["0.1", "b"]], []⟩) ∧
    split_file [["time_diff", "x"], ["0.0", "a"], ["0.1", "b"]] =
      SplitResult.ok [⟨1, ["time_diff", "x"], [["0.0", "a"], ["0.1", "b"]]⟩] := by
  decide

/-- Claim C5, amended: the fallback that substitutes index 1 when the
counter is 0 at end of input is reachable.  Whenever the input's first
data row is a boundary row and no later row is a boundary row, the loop
never increments the counter, so the end-of-input write executes with the
counter still 0 and the single group is written with index 1 via the
fallback. -/
theorem split_file_fallback_reachable (h r : Row) (rs : List Row)
    (hb : rowIsBoundary r = true) (hrs : ∀ x ∈ rs, rowIsBoundary x = false) :
    ∃ st : SplitState,
      finalState (h :: r :: rs) = some (h, st) ∧
      st.pitch_idx = 0 ∧ st.current_rows ≠ [] ∧ st.writes = [] ∧
      split_file (h :: r :: rs) = SplitResult.ok [⟨1, h, st.current_rows⟩] := by
  have hrne : r ≠ [] := by
    intro hr
    rw [hr] at hb
    simp [rowIsBoundary] at hb
  have hre : r.isEmpty = false := by
    cases r
    · exact absurd rfl hrne
    · rfl
  have h1 : processRow h initState r = ⟨0, [r], []⟩ := by
    simp [processRow, hre, hb, initState]
  have hP : ((r :: rs).foldl (processRow h) initState).pitch_idx = 0 ∧
      ((r :: rs).foldl (processRow h) initState).current_rows ≠ [] ∧
      ((r :: rs).foldl (processRow h) initState).writes = [] := by
    have hfold : (r :: rs).foldl (processRow h) initState =
        rs.foldl (processRow h) ⟨0, [r], []⟩ := by
      simp [List.foldl_cons, h1]
    rw [hfold]
    refine foldl_processRow_inv
      (fun s2 => s2.pitch_idx = 0 ∧ s2.current_rows ≠ [] ∧ s2.writes = []) h rs
      ⟨0, [r], []⟩ ⟨rfl, by simp, rfl⟩ ?_
    intro s2 x hx hP2
    rcases hP2 with ⟨e1, e2, e3⟩
    by_cases hxe : x.isEmpty
    · simp [processRow, hxe, e1, e3]
      exact e2
    · have hxb : rowIsBoundary x = false := hrs x hx
      have h3 : s2.current_rows.isEmpty = false := by
        cases hcr : s2.current_rows
        · exact absurd hcr e2
        · rfl
      simp [processRow, hxe, hxb, h3, e1, e3]
  refine ⟨(r :: rs).foldl (processRow h) initState, rfl, hP.1, hP.2.1, hP.2.2, ?_⟩
  rw [split_file_cons]
  congr 1
  generalize hgen : (r :: rs).foldl (processRow h) initState = stf at hP
  obtain ⟨e1, e2, e3⟩ := hP
  have h3 : stf.current_rows.isEmpty = false := by
    cases hcr : stf.current_rows
    · exact absurd hcr e2
    · rfl
  simp [flushFinal, h3, e1, e3]

/-- Witness for the amended Claim C5 at a concrete input. -/
theorem split_file_fallback_reachable_witness :
    ∃ st : SplitState,
      finalState [["time_diff", "x"], ["0.0", "a"], ["0.1", "b"]] =
        some (["time_diff", "x"], st) ∧
      st.pitch_idx = 0 ∧ st.current_rows ≠ [] ∧ st.writes = [] ∧
      split_file [["time_diff", "x"], ["0.0", "a"], ["0.1", "b"]] =
        SplitResult.ok [⟨1, ["time_diff", "x"], st.current_rows⟩] :=
  split_file_fallback_reachable ["time_diff", "x"] ["0.0", "a"] [["0.1", "b"]]
    (by decide) (by decide)

/-- Claim C6: every output file's first row equals the input's first row
(the header), verbatim, for every written output file. -/
theorem split_file_header_propagation (h : Row) (rest : List Row)
    (w : WriteEvent) (hw : w ∈ (split_file (h :: rest)).events) (base : String) :
    ((write_pitch base w.idx w.header w.rows).2).head? = some h := by
  have hh := (split_file_event_shape h rest w hw).1
  simp [write_pitch, hh]

/-- Witness for Claim C6 at a concrete input. -/
theorem split_file_header_propagation_witness :
    ((write_pitch ("input") 1 ["time_diff", "x"] [["0.0", "a"]]).2).head? =
      some ["time_diff", "x"] :=
  split_file_header_propagation ["time_diff", "x"] [["0.0", "a"]]
    ⟨1, ["time_diff", "x"], [["0.0", "a"]]⟩ (by decide) ("input")

/-- Claim C7: a row whose field 0 fails to parse as a float is treated as
a non-boundary row: the loop body performs no flush on it (the write log
is unchanged) and appends the row to the current group's buffer rather
than dropping it. -/
theorem processRow_parse_failure_retained (h : Row) (st : SplitState)
    (s : String) (rest : List String) (hp : parseDecLit (pyStrip s) = none) :
    (processRow h st (s :: rest)).writes = st.writes ∧
    (processRow h st (s :: rest)).current_rows = st.current_rows ++ [s :: rest] := by
  have hb : rowIsBoundary (s :: rest) = false := by
    simp [rowIsBoundary, floatEqZero, hp]
  have he : (s :: rest : Row).isEmpty = false := rfl
  by_cases h3 : st.current_rows.isEmpty <;> simp [processRow, he, hb, h3]

/-- Witness for Claim C7 at a concrete row with non-numeric field 0. -/
theorem processRow_parse_failure_retained_witness :
    (processRow ["time_diff"] initState [("NaNtext"), "y"]).writes =
      initState.writes ∧
    (processRow ["time_diff"] initState [("NaNtext"), "y"]).current_rows =
      initState.current_rows ++ [[("NaNtext"), "y"]] :=
  processRow_parse_failure_retained ["time_diff"] initState ("NaNtext") ["y"]
    (by decide)

/-- Claim C8: when the input path does not exist, `main` terminates with a
nonzero exit code and an error message naming the path, performs no write
event, and never creates the output directory. -/
theorem main_missing_input (p : String) (table : List Row) :
    main false p table = Except.error ("Input file not found: " ++ p) ∧
    exitCode (main false p table) = 1 ∧
    eventsOf (main false p table) = [] ∧
    outdirCreated (main false p table) = false :=
  ⟨rfl, rfl, rfl, rfl⟩

/-- Witness for Claim C8 at a concrete missing path. -/
theorem main_missing_input_witness :
    main false ("missing.csv") [] =
      Except.error ("Input file not found: " ++ "missing.csv") ∧
    exitCode (main false ("missing.csv") []) = 1 ∧
    eventsOf (main false ("missing.csv") []) = [] ∧
    outdirCreated (main false ("missing.csv") []) = false :=
  main_missing_input ("missing.csv") []

/-- Claim C9: an input with no rows at all takes the early return that
prints a message and writes nothing; an input with only a header produces
zero output files and no error. -/
theorem split_file_empty_input :
    split_file [] = SplitResult.emptyInput ∧
    ∀ h : Row, split_file [h] = SplitResult.ok [] :=
  ⟨rfl, fun _ => rfl⟩

/-- Witness for Claim C9 at a concrete header-only input. -/
theorem split_file_empty_input_witness :
    split_file [["time_diff", "x"]] = SplitResult.ok [] :=
  split_file_empty_input.2 ["time_diff", "x"]

/-- Claim C10: every output file written contains, besides the header, at
least one data row: `write_pitch` is only ever invoked with a nonempty row
buffer, so each written file content has length at least 2. -/
theorem split_file_writes_nonempty (table : List Row) (w : WriteEvent)
    (hw : w ∈ (split_file table).events) (base : String) :
    w.rows ≠ [] ∧ 2 ≤ ((write_pitch base w.idx w.header w.rows).2).length := by
  match table with
  | [] => simp [split_file, finalState, SplitResult.events] at hw
  | h :: rest =>
    have hne := (split_file_event_shape h rest w hw).2
    refine ⟨hne, ?_⟩
    have hpos : 0 < w.rows.length := List.length_pos.2 hne
    simp [write_pitch]
    omega

/-- Witness for Claim C10 at a concrete input and write event. -/
theorem split_file_writes_nonempty_witness :
    (⟨1, ["time_diff", "x"], [["0.0", "a"]]⟩ : WriteEvent).rows ≠ [] ∧
    2 ≤ ((write_pitch ("input") 1 ["time_diff", "x"] [["0.0", "a"]]).2).length :=
  split_file_writes_nonempty [["time_diff", "x"], ["0.0", "a"]]
    ⟨1, ["time_diff", "x"], [["0.0", "a"]]⟩ (by decide) ("input")

end SplitPitches
